import Mathlib

/-!
Shallow embedding of `pandas/types/cast.py` (dtype inference and coercion
engine): the promotion resolver `_maybe_promote`, the scalar inferencer
`_infer_dtype_from_scalar`, the masked assignment upcaster
`_maybe_upcast_putmask`, the object-array classifiers
`_possibly_convert_objects` / `_soft_convert_objects`, the safe downcaster
`_possibly_downcast_to_dtype`, and the common-type resolver
`_find_common_type`, together with proofs of the specification claims.

Machine integers are modelled as `Int` with explicit wrapping at the dtype
width; floating-point values are modelled as exact rationals plus a distinct
NaN marker (none of the verified claims depend on rounding of binary
floats); a Python exception is modelled as `Option`/`Except` failure.
-/

namespace PandasCast

/-- Storage dtypes of the numpy/pandas data model (`DType` of the spec):
booleans, fixed-width signed/unsigned integers, floats, complex, the
canonical nanosecond datetime and timedelta dtypes, the timezone-aware
datetime extension dtype, generic object, numpy string dtypes, the
categorical extension dtype and a generic pandas extension dtype. -/
inductive DType where
  | bool
  | int8 | int16 | int32 | int64
  | uint8 | uint16 | uint32 | uint64
  | float32 | float64
  | complex128
  | datetime64 | timedelta64
  | datetimetz
  | object
  | str_
  | categorical
  | extension
  deriving DecidableEq, Repr

/-- Scalar values that can appear as fill values or as elements of an
object array: Python `None`, the float `NaN`, finite floats (as exact
rationals), Python/numpy integers, booleans, finite complex numbers,
strings, and the `NaT` scalar of the datetime family. -/
inductive Val where
  | pynone
  | nan
  | vfloat (q : ℚ)
  | vint (n : ℤ)
  | vbool (b : Bool)
  | vcomplex (re im : ℚ)
  | vstr (s : String)
  | vnat
  deriving DecidableEq, Repr

/-- A 1-D homogeneous ndarray: a dtype tag plus element values. -/
structure Arr where
  dtype : DType
  data : List Val
  deriving DecidableEq, Repr

/-- The value of `pandas.tslib.iNaT`: the datetime/timedelta null sentinel,
the most negative 64-bit integer. -/
def iNaT : ℤ := -9223372036854775808

/-- The `isnull` predicate on scalars: `None`, float `NaN` and `NaT` are
null; everything else (including the raw integer `iNaT`) is not. -/
def isnullV : Val → Bool
  | .pynone => true
  | .nan => true
  | .vnat => true
  | _ => false

/-- `is_float` on a scalar: Python/numpy floats, including `NaN`. -/
def is_float_v : Val → Bool
  | .nan => true
  | .vfloat _ => true
  | _ => false

/-- `is_bool` on a scalar. -/
def is_bool_v : Val → Bool
  | .vbool _ => true
  | _ => false

/-- `is_integer` on a scalar (Python int / numpy integer). -/
def is_integer_v : Val → Bool
  | .vint _ => true
  | _ => false

/-- `is_complex` on a scalar. -/
def is_complex_v : Val → Bool
  | .vcomplex _ _ => true
  | _ => false

/-- `issubclass(dtype.type, (np.datetime64, np.timedelta64))`. -/
def DType.isDatelike : DType → Bool
  | .datetime64 => true
  | .timedelta64 => true
  | _ => false

/-- Width in bits and signedness of the integer dtypes; `none` for
non-integer dtypes (this is the `issubclass(dtype.type, np.integer)`
test together with the data needed for overflow checks). -/
def intWidth : DType → Option (Nat × Bool)
  | .int8 => some (8, true)
  | .int16 => some (16, true)
  | .int32 => some (32, true)
  | .int64 => some (64, true)
  | .uint8 => some (8, false)
  | .uint16 => some (16, false)
  | .uint32 => some (32, false)
  | .uint64 => some (64, false)
  | _ => none

/-- `is_float_dtype`. -/
def DType.isFloatD : DType → Bool
  | .float32 => true
  | .float64 => true
  | _ => false

/-- `is_complex_dtype`. -/
def DType.isComplexD : DType → Bool
  | .complex128 => true
  | _ => false

/-- Wrap an unbounded integer into the range of a `w`-bit integer dtype
(two's complement when `s = true`, modular when unsigned); this is what a
numpy `astype` between integer dtypes computes. -/
def wrapInt (n : ℤ) (w : Nat) (s : Bool) : ℤ :=
  let m := n % (2 ^ w : ℤ)
  if s then (if 2 ^ (w - 1) ≤ m then m - 2 ^ w else m) else m

/-- The dtype `np.asarray` gives a Python integer scalar: `int64` when it
fits, else `uint64` when it fits, else an object array (modelled as `none`
because every later `astype` of such an array to an integer dtype raises). -/
def asarrayIntDtype (n : ℤ) : Option DType :=
  if -9223372036854775808 ≤ n ∧ n < 9223372036854775808 then some .int64
  else if 0 ≤ n ∧ n < 18446744073709551616 then some .uint64
  else none

/-- Modelled from the spec: the external `lib.Timestamp(value).value`
parsing capability used by the promotion resolver — an integer is already
a nanosecond count; parsing any other scalar kind is not modelled and
reports failure (the resolver substitutes the sentinel on failure). -/
def tsValue : Val → Option ℤ
  | .vint n => some n
  | _ => none

/-- Modelled from the spec: the external `lib.Timedelta(value).value`
parsing capability, with the same shape as `tsValue`. -/
def tdValue : Val → Option ℤ
  | .vint n => some n
  | _ => none

/-- The fill-value argument of `_maybe_promote`: either a scalar or an
ndarray (of which only the dtype matters to the resolver). -/
inductive FillArg where
  | scalar (v : Val)
  | arr (dtype : DType)
  deriving DecidableEq, Repr

/-- The integer-overflow probing branch of `_maybe_promote` (cast.py
lines 275-282): `arr = np.asarray(fill_value)`, and the dtype is replaced
by `arr.dtype` exactly when the fill value does not survive the
round-trip `arr.astype(dtype)` cast-and-compare; comparing through an
object array raises. -/
def promote_int_fill (dtype : DType) (w : Nat) (s : Bool) (n : ℤ) :
    Option (DType × Val) :=
  match asarrayIntDtype n with
  | none => none
  | some ad =>
    if wrapInt n w s = n then some (dtype, .vint n) else some (ad, .vint n)

/-- The main scalar cascade of `_maybe_promote` (cast.py lines 242-299),
after the ndarray fill value has been normalized: dispatches first on a
datetime-like dtype, then on the kind of the fill value. `none` models an
uncaught exception (integer overflow probing through an object array). -/
def maybe_promote_scalar (dtype : DType) (fv : Val) : Option (DType × Val) :=
  if dtype.isDatelike then
    -- refuse to upcast datetime64/timedelta64; normalize the fill value
    if isnullV fv then some (dtype, .vint iNaT)
    else if dtype = .datetime64 then
      some (dtype, .vint ((tsValue fv).getD iNaT))
    else
      some (dtype, .vint ((tdValue fv).getD iNaT))
  else if dtype = .datetimetz then
    if isnullV fv then some (dtype, .vint iNaT) else some (dtype, fv)
  else if is_float_v fv then
    if dtype = .bool then some (.object, fv)
    else if (intWidth dtype).isSome then some (.float64, fv)
    else some (dtype, fv)
  else if is_bool_v fv then
    if dtype = .bool then some (dtype, fv) else some (.object, fv)
  else if is_integer_v fv then
    if dtype = .bool then some (.object, fv)
    else
      match intWidth dtype, fv with
      | some ws, .vint n => promote_int_fill dtype ws.1 ws.2 n
      | _, _ => some (dtype, fv)
  else if is_complex_v fv then
    if dtype = .bool then some (.object, fv)
    else if (intWidth dtype).isSome || dtype.isFloatD then some (.complex128, fv)
    else some (dtype, fv)
  else if fv = .pynone then
    if dtype.isFloatD || dtype.isComplexD then some (dtype, .nan)
    else if (intWidth dtype).isSome then some (.float64, .nan)
    else if dtype.isDatelike then some (dtype, .vint iNaT)
    else some (.object, fv)
  else
    some (.object, fv)

/-- The final normalization of `_maybe_promote` (cast.py lines 301-307):
categorical and timezone-aware dtypes pass through, a numpy string dtype
collapses to object; `np.dtype(dtype)` on a generic extension dtype
raises. -/
def promote_finalize : DType × Val → Option (DType × Val)
  | (d, v) =>
    if d = .categorical then some (d, v)
    else if d = .datetimetz then some (d, v)
    else if d = .extension then none
    else if d = .str_ then some (.object, v)
    else some (d, v)

/-- The scalar cascade followed by the final normalization: the whole
of `_maybe_promote` once the fill value is a scalar. -/
def promote_pipeline (dtype : DType) (fv : Val) : Option (DType × Val) :=
  (maybe_promote_scalar dtype fv).bind promote_finalize

/-- `_maybe_promote(dtype, fill_value)`: normalize an ndarray fill value
(cast.py lines 230-239) — a datetime-like array becomes the `iNaT`
sentinel, an object array forces the dtype to object with a NaN fill,
any other array becomes a NaN fill — then run the scalar cascade and the
final normalization. -/
def maybe_promote (dtype : DType) (fill : FillArg) : Option (DType × Val) :=
  match fill with
  | .scalar v => promote_pipeline dtype v
  | .arr ad =>
    if ad.isDatelike then promote_pipeline dtype (.vint iNaT)
    else if ad = .object then promote_pipeline .object .nan
    else promote_pipeline dtype .nan

/-- `isinstance(t, ExtensionDtype)`: categorical and timezone-aware
datetime dtypes are extension dtypes, as is the generic extension tag. -/
def is_extension_dtype_t : DType → Bool
  | .extension => true
  | .categorical => true
  | .datetimetz => true
  | _ => false

/-- Whether a dtype takes part in the numeric promotion lattice. -/
def isNumericLattice : DType → Bool
  | .bool => true
  | .float32 => true
  | .float64 => true
  | .complex128 => true
  | d => (intWidth d).isSome

/-- Smallest signed-integer dtype of at least `w` bits. -/
def intOfWidth (w : Nat) : DType :=
  if w ≤ 8 then .int8 else if w ≤ 16 then .int16
  else if w ≤ 32 then .int32 else .int64

/-- Smallest unsigned-integer dtype of at least `w` bits. -/
def uintOfWidth (w : Nat) : DType :=
  if w ≤ 8 then .uint8 else if w ≤ 16 then .uint16
  else if w ≤ 32 then .uint32 else .uint64

/-- Modelled from the spec: one step of the numeric promotion lattice
Bool < Int < Float < Complex, widened to the narrowest covering width;
mixed signed/unsigned integers take the narrowest covering signed type,
or float64 when none covers. -/
def promote_pair (a b : DType) : DType :=
  if a = .object ∨ b = .object then .object
  else if a = .bool then b
  else if b = .bool then a
  else if a = .complex128 ∨ b = .complex128 then .complex128
  else
    match intWidth a, intWidth b with
    | some (wa, sa), some (wb, sb) =>
      if sa = sb then (if sa then intOfWidth (max wa wb) else uintOfWidth (max wa wb))
      else
        let wu := if sa then wb else wa
        let wi := if sa then wa else wb
        if 64 ≤ wu then .float64 else intOfWidth (max wi (2 * wu))
    | some (wa, _), none =>
      if b = .float32 then (if wa ≤ 16 then .float32 else .float64) else .float64
    | none, some (wb, _) =>
      if a = .float32 then (if wb ≤ 16 then .float32 else .float64) else .float64
    | none, none =>
      if a = .float64 ∨ b = .float64 then .float64 else .float32

/-- Modelled from the spec: the external `np.find_common_type` numeric
promotion fallback — the promotion lattice folded over the inputs, with
Object when some input is not numeric. -/
def np_find_common_type (ts : List DType) : DType :=
  if ts.all isNumericLattice then ts.foldl promote_pair .bool else .object

/-- `_find_common_type(types)`: error on an empty list; all-equal returns
the first dtype unchanged; any extension dtype gives object; uniform
datetime64/timedelta64 give the canonical nanosecond dtype; otherwise the
numeric promotion fallback decides. -/
def find_common_type (types : List DType) : Except Unit DType :=
  match types with
  | [] => .error ()
  | first :: rest =>
    if rest.all (fun t => t = first) then .ok first
    else if (first :: rest).any is_extension_dtype_t then .ok .object
    else if (first :: rest).all (fun t => t = .datetime64) then .ok .datetime64
    else if (first :: rest).all (fun t => t = .timedelta64) then .ok .timedelta64
    else .ok (np_find_common_type (first :: rest))

/-- The argument of `_infer_dtype_from_scalar`: either an ndarray (with
its number of dimensions, dtype and contained value) or a plain Python
scalar. -/
inductive ScalarArg where
  | ndarr (ndim : Nat) (dtype : DType) (item : Val)
  | py (v : Val)
  deriving DecidableEq, Repr

/-- `_infer_dtype_from_scalar(val)`: an ndarray must be exactly
0-dimensional and unwraps to its own dtype and contained scalar; a string
maps to object; `NaT` is a datetime instance and normalizes to the
sentinel with the nanosecond datetime dtype; booleans, integers, floats
and complex values map to their default dtypes; anything else to object. -/
def infer_dtype_from_scalar : ScalarArg → Except Unit (DType × Val)
  | .ndarr ndim d v => if ndim ≠ 0 then .error () else .ok (d, v)
  | .py v =>
    match v with
    | .vstr s => .ok (.object, .vstr s)
    | .vnat => .ok (.datetime64, .vint iNaT)
    | .vbool b => .ok (.bool, .vbool b)
    | .vint n => .ok (.int64, .vint n)
    | .vfloat q => .ok (.float64, .vfloat q)
    | .nan => .ok (.float64, .nan)
    | .vcomplex re im => .ok (.complex128, .vcomplex re im)
    | .pynone => .ok (.object, .pynone)

/-- Truncation of a rational toward zero (the C-style float-to-int cast
numpy applies). -/
def qtrunc (q : ℚ) : ℤ := if 0 ≤ q then ⌊q⌋ else -⌊-q⌋

/-- The float value of an integer element (exact in this model). -/
def intFloat (n : ℤ) : Val := .vfloat (n : ℚ)

/-- Assignment casting of one scalar into an array of the given dtype, as
performed by `np.place` and boolean-mask assignment: `none` models the
error numpy raises (NaN or None into an integer array, a float or NaN
into a datetime array, a string into any numeric array); integers wrap,
floats truncate toward zero. -/
def castVal (v : Val) (d : DType) : Option Val :=
  if d = .object then some v
  else
    match intWidth d with
    | some ws =>
      match v with
      | .vint n => some (.vint (wrapInt n ws.1 ws.2))
      | .vbool b => some (.vint (wrapInt (if b then 1 else 0) ws.1 ws.2))
      | .vfloat q => some (.vint (wrapInt (qtrunc q) ws.1 ws.2))
      | _ => none
    | none =>
      match v with
      | .vint n =>
        if d.isFloatD then some (.vfloat (n : ℚ))
        else if d = .complex128 then some (.vcomplex (n : ℚ) 0)
        else if d = .bool then some (.vbool (decide (n ≠ 0)))
        else if d.isDatelike then some (.vint n)
        else none
      | .vfloat q =>
        if d.isFloatD then some (.vfloat q)
        else if d = .complex128 then some (.vcomplex q 0)
        else if d = .bool then some (.vbool (decide (q ≠ 0)))
        else none
      | .nan =>
        if d.isFloatD || d = .complex128 then some .nan
        else if d = .bool then some (.vbool true)
        else none
      | .pynone => if d.isFloatD then some .nan else none
      | .vbool b =>
        if d.isFloatD then some (.vfloat (if b then 1 else 0))
        else if d = .complex128 then some (.vcomplex (if b then 1 else 0) 0)
        else if d = .bool then some (.vbool b)
        else none
      | .vcomplex re im => if d = .complex128 then some (.vcomplex re im) else none
      | .vnat => if d.isDatelike then some .vnat else none
      | .vstr _ => none

/-- One scalar under `ndarray.astype`: like assignment casting, except
NaN silently becomes garbage (the iNaT bit pattern) in an integer target
instead of raising, and numeric values convert into the datetime dtypes
as nanosecond counts (NaN becoming `NaT`). -/
def astypeVal (v : Val) (d : DType) : Option Val :=
  match v, intWidth d with
  | .nan, some ws => some (.vint (wrapInt iNaT ws.1 ws.2))
  | _, _ =>
    if d.isDatelike then
      match v with
      | .vint n => some (.vint n)
      | .vfloat q => some (.vint (qtrunc q))
      | .nan => some .vnat
      | .vnat => some .vnat
      | _ => none
    else castVal v d

/-- `astype` over a list of elements: all-or-nothing. -/
def astypeList (d : DType) : List Val → Option (List Val)
  | [] => some []
  | x :: xs =>
    match astypeVal x d, astypeList d xs with
    | some c, some l => some (c :: l)
    | _, _ => none

/-- `arr.astype(d)` on our array model; `none` models a raise. -/
def astypeArr (a : Arr) (d : DType) : Option Arr :=
  (astypeList d a.data).map (fun l => ⟨d, l⟩)

/-- `is_extension_type(values)`: categorical, timezone-aware datetime and
generic extension containers. -/
def Arr.isExtensionType (a : Arr) : Bool := is_extension_dtype_t a.dtype

/-- `_maybe_upcast(values, fill_value, dtype=None, copy)` (cast.py lines
366-389): an extension-typed array passes through with the fill value
untouched; otherwise the dtype is promoted against the fill value and the
array astyped when the promoted dtype differs. `none` models an uncaught
exception; the `copy` flag is identity in this functional model. -/
def maybe_upcast (values : Arr) (fill : FillArg) : Option (Arr × FillArg) :=
  if values.isExtensionType then some (values, fill)
  else
    match maybe_promote values.dtype fill with
    | none => none
    | some (nd, fv) =>
      if nd ≠ values.dtype then (astypeArr values nd).map (fun a => (a, .scalar fv))
      else some (values, .scalar fv)

/-- The `other` argument of `_maybe_upcast_putmask`: a scalar, a
0-dimensional ndarray, or an ndarray. -/
inductive OtherArg where
  | scalar (v : Val)
  | arr0d (dtype : DType) (v : Val)
  | array (a : Arr)
  deriving DecidableEq, Repr

/-- How `other` is seen by `_maybe_promote` as a fill-value argument. -/
def otherFill : OtherArg → FillArg
  | .scalar v => .scalar v
  | .arr0d d _ => .arr d
  | .array b => .arr b.dtype

/-- Boolean-mask indexing `other[mask]`: requires equal lengths (numpy
raises otherwise, modelled as `none`). -/
def maskSelect (data : List Val) (mask : List Bool) : Option (List Val) :=
  if data.length = mask.length then
    some ((List.zip data mask).filterMap fun p => if p.2 then some p.1 else none)
  else none

/-- The element walk of `np.place`: replace the masked positions of the
data list by the values of `vals` cycled in order, assignment-casting
each into `d`; `none` models a cast failure raising. `k` counts masked
positions already filled. -/
def placeGo (d : DType) (vals : List Val) :
    List Val → List Bool → Nat → Option (List Val)
  | [], _, _ => some []
  | _ :: _, [], _ => none
  | x :: xs, m :: ms, k =>
    if m then
      match castVal (vals.getD (k % vals.length) .pynone) d with
      | none => none
      | some c => (placeGo d vals xs ms (k + 1)).map (c :: ·)
    else (placeGo d vals xs ms k).map (x :: ·)

/-- `np.place(arr, mask, vals)`: same-length mask required, a scalar or
0-dimensional `other` broadcasts, an empty value list raises. -/
def place (a : Arr) (mask : List Bool) (other : OtherArg) : Option Arr :=
  let vals : List Val :=
    match other with
    | .scalar v => [v]
    | .arr0d _ v => [v]
    | .array b => b.data
  if vals.isEmpty ∨ a.data.length ≠ mask.length then none
  else (placeGo a.dtype vals a.data mask 0).map (fun l => ⟨a.dtype, l⟩)

/-- The `changeit` closure of `_maybe_upcast_putmask` (cast.py lines
176-196). Its first attempt indexes `other` by the mask and, when the
masked values survive an astype round-trip, writes through
`result.values` — an attribute a plain ndarray does not have, so for the
ndarray results modelled here that attempt always raises and is
swallowed; control falls to the upcast path: promote a copy of `result`
and `np.place` into it, reporting `changed = True`. A failure of that
`np.place` itself propagates. -/
def changeit (result : Arr) (mask : List Bool) (other : OtherArg) :
    Option (Arr × Bool) :=
  match maybe_upcast result (otherFill other) with
  | none => none
  | some (r, _) => (place r mask other).map (fun a => (a, true))

/-- The datetime pre-conversion of `_maybe_upcast_putmask` (cast.py lines
167-174): on a datetime-like destination, a null scalar becomes `NaT`, an
integer scalar becomes a 0-dimensional array of the destination dtype
(nanosecond counts keep their value), and an integer-typed array is cast
to the destination dtype. -/
def putmaskOther (rd : DType) (other : OtherArg) : OtherArg :=
  if rd.isDatelike then
    match other with
    | .scalar v =>
      if isnullV v then .scalar .vnat
      else if is_integer_v v then .arr0d rd v
      else .scalar v
    | .arr0d d v => if (intWidth d).isSome then .arr0d rd v else .arr0d d v
    | .array b => if (intWidth b.dtype).isSome then .array ⟨rd, b.data⟩ else .array b
  else other

/-- `_maybe_upcast_putmask(result, mask, other)` (cast.py lines 142-224):
no-op when the mask has no true entry; otherwise pre-convert `other` for
datetime-like destinations, promote the destination dtype against
`other`, and upcast through `changeit` when the promoted dtype differs
and the replacement values need a null — otherwise try the direct
`np.place` write (reporting `changed = False`) and fall back to
`changeit` if it raises. A mismatched boolean index on an array `other`
raises uncaught. -/
def maybe_upcast_putmask (result : Arr) (mask : List Bool)
    (other0 : OtherArg) : Option (Arr × Bool) :=
  if mask.any id then
    let other := putmaskOther result.dtype other0
    match maybe_promote result.dtype (otherFill other) with
    | none => none
    | some (new_dtype, _) =>
      let tryplace : Option (Arr × Bool) :=
        match place result mask other with
        | some r => some (r, false)
        | none => changeit result mask other
      if new_dtype ≠ result.dtype then
        match other with
        | .scalar v => if isnullV v then changeit result mask other else tryplace
        | .arr0d _ v => if isnullV v then changeit result mask other else tryplace
        | .array b =>
          match maskSelect b.data mask with
          | none => none
          | some om => if om.any isnullV then changeit result mask other else tryplace
      else tryplace
  else some (result, false)

/-- Modelled from the spec: decimal parsing of a numeric string token;
only plain digit strings are modelled here, anything else is
unparseable. -/
def parseDigits (s : String) : Option ℤ :=
  if s.length ≠ 0 ∧ s.toList.all Char.isDigit then
    some (s.toList.foldl (fun acc c => acc * 10 + ((c.toNat : ℤ) - 48)) 0)
  else none

/-- Modelled from the spec: `parse_numeric` under Coerce on one object
element — numbers pass through, booleans are numeric, numeric strings
parse, and every unparseable element becomes null. -/
def parseNumCoerce : Val → Val
  | .vint n => .vint n
  | .vfloat q => .vfloat q
  | .nan => .nan
  | .pynone => .nan
  | .vnat => .nan
  | .vbool b => .vint (if b then 1 else 0)
  | .vcomplex _ _ => .nan
  | .vstr s =>
    match parseDigits s with
    | some k => .vint k
    | none => .nan

/-- Modelled from the spec: `lib.maybe_convert_numeric(values, set(),
coerce_numeric=True)` — coerce every element to a number or null; the
result is an int64 array when every element parsed as an integer, and a
float64 array (integers converted exactly) otherwise. -/
def maybe_convert_numeric_coerce (a : Arr) : Arr :=
  let conv := a.data.map parseNumCoerce
  if conv.all is_integer_v then ⟨.int64, conv⟩
  else ⟨.float64, conv.map fun v => match v with | .vint n => intFloat n | w => w⟩

/-- Modelled from the spec: the soft (non-coercing) mode of the external
object-array classifier `lib.maybe_convert_objects` — a nonempty
uniformly boolean / integer / float array converts to the matching
dtype; everything else (including, in this model, the datetime and
timedelta probes) leaves the array untouched. -/
def maybe_convert_objects_soft (a : Arr) (convert_datetime : Bool)
    (convert_timedelta : Bool) : Arr :=
  if a.data ≠ [] ∧ a.data.all is_bool_v then ⟨.bool, a.data⟩
  else if a.data ≠ [] ∧ a.data.all is_integer_v then ⟨.int64, a.data⟩
  else if a.data ≠ [] ∧ a.data.all is_float_v then ⟨.float64, a.data⟩
  else a

/-- Modelled from the spec: `to_datetime(values, errors='coerce')` (and
`_possibly_cast_to_datetime(values, 'M8[ns]', errors='coerce')`) — every
element parses to a nanosecond timestamp or becomes `NaT`. -/
def to_datetime_coerce (a : Arr) : Arr :=
  ⟨.datetime64, a.data.map fun v =>
    match tsValue v with
    | some n => .vint n
    | none => .vnat⟩

/-- Modelled from the spec: `to_timedelta(values, coerce=True)`,
mirroring `to_datetime_coerce` for durations. -/
def to_timedelta_coerce (a : Arr) : Arr :=
  ⟨.timedelta64, a.data.map fun v =>
    match tdValue v with
    | some n => .vint n
    | none => .vnat⟩

/-- Modelled from the spec: `to_numeric(values, errors='coerce')`. -/
def to_numeric_coerce (a : Arr) : Arr := maybe_convert_numeric_coerce a

/-- The `convert_dates` / `convert_timedeltas` arguments of
`_possibly_convert_objects`: `False`, `True`, or the string `'coerce'`. -/
inductive ConvFlag where
  | off
  | on
  | coerce
  deriving DecidableEq, Repr

/-- `_possibly_convert_objects(values, convert_dates, convert_numeric,
convert_timedeltas, copy)` (cast.py lines 541-601) on an ndarray input:
a date stage (aggressive under `'coerce'`, where an all-null coerced
result is discarded and the original kept), a timedelta stage under the
same rule, then — while the array is still object-typed — either coerced
numeric conversion under the all-null-discard rule or one soft
conversion pass. The `copy` flag is identity in this functional model. -/
def possibly_convert_objects (values : Arr) (convert_dates : ConvFlag)
    (convert_numeric : Bool) (convert_timedeltas : ConvFlag)
    (copy : Bool) : Arr :=
  let v1 :=
    if convert_dates ≠ .off ∧ values.dtype = .object then
      match convert_dates with
      | .coerce =>
        let nv := to_datetime_coerce values
        if ¬ nv.data.all isnullV then nv else values
      | _ => maybe_convert_objects_soft values true false
    else values
  let v2 :=
    if convert_timedeltas ≠ .off ∧ v1.dtype = .object then
      match convert_timedeltas with
      | .coerce =>
        let nv := to_timedelta_coerce v1
        if ¬ nv.data.all isnullV then nv else v1
      | _ => maybe_convert_objects_soft v1 false true
    else v1
  if v2.dtype = .object then
    if convert_numeric then
      let nv := maybe_convert_numeric_coerce v2
      if ¬ nv.data.all isnullV then nv else v2
    else maybe_convert_objects_soft v2 false false
  else v2

/-- The `values` argument of `_soft_convert_objects`: an ndarray, a
list/tuple, or a bare scalar. -/
inductive SCInput where
  | arrIn (a : Arr)
  | listIn (data : List Val)
  | scalarIn (v : Val)
  deriving DecidableEq, Repr

/-- The post-validation body of `_soft_convert_objects` (cast.py lines
616-657): lists and scalars become object arrays; a non-object array is
returned unchanged; under `coerce` the single enabled conversion is
delegated to the coercing parser and returned; otherwise soft conversion
runs per enabled flag, re-checking the object dtype before each stage,
with the numeric stage keeping its coerced result only when not every
element became null. -/
def soft_convert_result (values : SCInput) (datetime : Bool)
    (numeric : Bool) (timedelta : Bool) (coerce : Bool) : Arr :=
  let v : Arr :=
    match values with
    | .listIn data => ⟨.object, data⟩
    | .scalarIn x => ⟨.object, [x]⟩
    | .arrIn a => a
  if v.dtype ≠ .object then v
  else if coerce then
    if datetime then to_datetime_coerce v
    else if timedelta then to_timedelta_coerce v
    else to_numeric_coerce v
  else
    let v1 := if datetime then maybe_convert_objects_soft v true false else v
    let v2 :=
      if timedelta ∧ v1.dtype = .object then maybe_convert_objects_soft v1 false true
      else v1
    if numeric ∧ v2.dtype = .object then
      let conv := maybe_convert_numeric_coerce v2
      if ¬ conv.data.all isnullV then conv else v2
    else v2

/-- `_soft_convert_objects(values, datetime, numeric, timedelta, coerce,
copy)` (cast.py lines 604-657): raises when no conversion flag is
enabled, and when `coerce` is set with more than one enabled; otherwise
delegates to the conversion body. The `copy` flag is identity in this
functional model. -/
def soft_convert_objects (values : SCInput) (datetime : Bool)
    (numeric : Bool) (timedelta : Bool) (coerce : Bool) (copy : Bool) :
    Except Unit Arr :=
  let conversion_count :=
    (if datetime then 1 else 0) + (if numeric then 1 else 0) +
      (if timedelta then 1 else 0)
  if conversion_count = 0 then .error ()
  else if 1 < conversion_count ∧ coerce then .error ()
  else .ok (soft_convert_result values datetime numeric timedelta coerce)

/-- `np.dtype.kind` of the modelled dtypes. -/
def dtypeKind : DType → Char
  | .bool => 'b'
  | .int8 | .int16 | .int32 | .int64 => 'i'
  | .uint8 | .uint16 | .uint32 | .uint64 => 'u'
  | .float32 | .float64 => 'f'
  | .complex128 => 'c'
  | .datetime64 => 'M'
  | .datetimetz => 'M'
  | .timedelta64 => 'm'
  | _ => 'O'

/-- `np.dtype.itemsize` in bytes. -/
def itemsize : DType → Nat
  | .bool => 1
  | .int8 => 1
  | .int16 => 2
  | .int32 => 4
  | .int64 => 8
  | .uint8 => 1
  | .uint16 => 2
  | .uint32 => 4
  | .uint64 => 8
  | .float32 => 4
  | .float64 => 8
  | .complex128 => 16
  | _ => 8

/-- The dtype argument of `_possibly_downcast_to_dtype`: either a dtype
object or a string (such as `'infer'` or a dtype name). -/
inductive DtypeArg where
  | str (s : String)
  | dt (d : DType)
  deriving DecidableEq, Repr

/-- `np.dtype(s)` on dtype-name strings; `none` models the TypeError
numpy raises on an unrecognized name. -/
def npDtypeOfString (s : String) : Option DType :=
  if s = "bool" then some .bool
  else if s = "int8" then some .int8
  else if s = "int16" then some .int16
  else if s = "int32" then some .int32
  else if s = "int64" then some .int64
  else if s = "uint8" then some .uint8
  else if s = "uint16" then some .uint16
  else if s = "uint32" then some .uint32
  else if s = "uint64" then some .uint64
  else if s = "float32" then some .float32
  else if s = "float64" then some .float64
  else if s = "complex128" then some .complex128
  else if s = "datetime64[ns]" then some .datetime64
  else if s = "timedelta64[ns]" then some .timedelta64
  else if s = "object" then some .object
  else none

/-- Modelled from the spec: the external `lib.infer_dtype` kind
classifier over the flattened elements — a nonempty uniformly boolean /
integer / floating array is named, anything else is mixed. -/
def infer_dtype_kind (data : List Val) : String :=
  if data ≠ [] ∧ data.all is_bool_v then "boolean"
  else if data ≠ [] ∧ data.all is_integer_v then "integer"
  else if data ≠ [] ∧ data.all is_float_v then "floating"
  else "mixed"

/-- `issubclass(dtype.type, np.number)`. -/
def isNumberDtype (d : DType) : Bool :=
  (intWidth d).isSome || d.isFloatD || d = .complex128

/-- `issubclass(dtype.type, (np.object_, np.number))`. -/
def isObjOrNumber (d : DType) : Bool := d = .object || isNumberDtype d

/-- `isinstance(v, (np.integer, np.floating, np.bool, int, float, bool))`
— the guard against exotic comparable scalars such as Decimal. -/
def isNumericScalarV : Val → Bool
  | .vint _ => true
  | .vfloat _ => true
  | .nan => true
  | .vbool _ => true
  | _ => false

/-- The numeric value of a scalar for `np.allclose`-style comparison
(exact in this rational model); `none` when not numeric. -/
def numVal : Val → Option ℚ
  | .vint n => some (n : ℚ)
  | .vfloat q => some q
  | .vbool b => some (if b then 1 else 0)
  | _ => none

/-- One `np.allclose` element comparison (exact here): both values
numeric and equal; a failed comparison counts as not close, which lands
on the same "return the original" outcome as the raise it models. -/
def valClose (a b : Val) : Bool :=
  match numVal a, numVal b with
  | some x, some y => decide (x = y)
  | _, _ => false

/-- `np.allclose` over whole arrays (exact here). -/
def listClose (xs ys : List Val) : Bool :=
  decide (xs.length = ys.length) &&
    (List.zip xs ys).all fun p => valClose p.1 p.2

/-- `x.round()` on one element (the `trans` hook of the downcaster);
Mathlib `round` rounds halves up where numpy rounds them to even, but no
verified claim touches half-integer values. -/
def roundVal : Val → Val
  | .vfloat q => .vfloat ((round q : ℤ) : ℚ)
  | v => v

/-- Apply the `trans` hook when rounding is enabled. -/
def roundIf (rnd : Bool) (v : Val) : Val := if rnd then roundVal v else v

/-- `trans` over a whole array. -/
def transArr (rnd : Bool) (a : Arr) : Arr :=
  if rnd then ⟨a.dtype, a.data.map roundVal⟩ else a

/-- The guarded narrowing body of `_possibly_downcast_to_dtype` (cast.py
lines 82-135), with `rnd` the rounding `trans` hook; `none` models an
exception inside this region, which the enclosing handler swallows into
"return the original result". Steps: same-kind non-upcast short-circuit;
floating targets cast directly; bool/integer targets probe the first
element (null, failed round-trip, or exotic scalar aborts) and then cast
the whole null-free array, verifying closeness; datetime-like targets
over integer/float sources cast directly, and on failure only a
timezone-carrying target has the `to_datetime`-localize fallback (a bare
`np.dtype` has no `.tz` attribute, so that access itself raises). -/
def downcastTry (a : Arr) (d : DType) (rnd : Bool) : Option Arr :=
  if dtypeKind d = dtypeKind a.dtype ∧ itemsize a.dtype ≤ itemsize d ∧
      a.data ≠ [] then some a
  else if d.isFloatD then astypeArr a d
  else if d = .bool ∨ (intWidth d).isSome then
    if a.data = [] then astypeArr (transArr rnd a) d
    else
      let r0 := a.data.headD .pynone
      if isnullV r0 then some a
      else
        match astypeVal (roundIf rnd r0) d with
        | none => none
        | some c =>
          if ¬ valClose r0 c then some a
          else if ¬ isNumericScalarV r0 then some a
          else if isObjOrNumber a.dtype ∧ a.data.all (fun x => ¬ isnullV x) then
            match astypeArr (transArr rnd a) d with
            | none => none
            | some newr =>
              if listClose newr.data a.data then some newr else some a
          else some a
  else if (dtypeKind d = 'M' ∨ dtypeKind d = 'm') ∧
      (dtypeKind a.dtype = 'i' ∨ dtypeKind a.dtype = 'f') then
    match astypeArr a d with
    | some r => some r
    | none => if d = .datetimetz then some ⟨.datetimetz, a.data⟩ else none
  else some a

/-- The `result` argument of `_possibly_downcast_to_dtype`: a scalar or
an ndarray. -/
inductive DcInput where
  | scalar (v : Val)
  | arr (a : Arr)
  deriving DecidableEq, Repr

/-- `_possibly_downcast_to_dtype(result, dtype)` (cast.py lines 46-139):
a scalar returns unchanged before anything else; the string `'infer'`
resolves through the external kind classifier into a dtype-name string
(`'int64'` with rounding enabled for a floating inference over a numeric
result, `'object'` otherwise); a dtype-name string then resolves through
`np.dtype`, whose failure on an unrecognized name raises BEFORE the
guarded region (modelled as `Except.error`); the narrowing body runs
inside a swallow-all handler that falls back to the original array. -/
def possibly_downcast_to_dtype (result : DcInput) (dtype : DtypeArg) :
    Except Unit DcInput :=
  match result with
  | .scalar v => .ok (.scalar v)
  | .arr a =>
    let resolved : Except Unit (DType × Bool) :=
      match dtype with
      | .dt d => .ok (d, false)
      | .str s =>
        let s2r : String × Bool :=
          if s = "infer" then
            let k := infer_dtype_kind a.data
            if k = "boolean" then ("bool", false)
            else if k = "integer" then ("int64", false)
            else if k = "datetime64" then ("datetime64[ns]", false)
            else if k = "timedelta64" then ("timedelta64[ns]", false)
            else if k = "floating" then ("int64", isNumberDtype a.dtype)
            else ("object", false)
          else (s, false)
        match npDtypeOfString s2r.1 with
        | some d => .ok (d, s2r.2)
        | none => .error ()
    resolved.map fun p => .arr ((downcastTry a p.1 p.2).getD a)

/-- C1: the promotion resolver maps `(Int64, None)` to `(Float64, NaN)`,
`(Bool, 1.5)` to `(Object, 1.5)`, and `(DateTime(ns), null)` to
`(DateTime(ns), iNaT)` — shown both for the `None` null literal and for a
`NaN` null fill against the datetime dtype. -/
theorem claim_C1 :
    maybe_promote .int64 (.scalar .pynone) = some (.float64, .nan) ∧
    maybe_promote .bool (.scalar (.vfloat (3 / 2))) = some (.object, .vfloat (3 / 2)) ∧
    maybe_promote .datetime64 (.scalar .pynone) = some (.datetime64, .vint iNaT) ∧
    maybe_promote .datetime64 (.scalar .nan) = some (.datetime64, .vint iNaT) := by
  refine ⟨rfl, rfl, rfl, rfl⟩

/-- C5: common-type resolution is reflexive — a singleton list returns its
dtype unchanged, and a list of two equal nanosecond-datetime dtypes
returns that dtype rather than degrading to object. -/
theorem claim_C5 :
    (∀ d : DType, find_common_type [d] = .ok d) ∧
    find_common_type [.datetime64, .datetime64] = .ok .datetime64 := by
  refine ⟨fun d => rfl, rfl⟩

/-- A value that wraps to itself at 64-bit signed width lies in the
signed 64-bit range and conversely. -/
theorem wrapInt_64s_eq (n : ℤ) :
    wrapInt n 64 true = n ↔
      -9223372036854775808 ≤ n ∧ n < 9223372036854775808 := by
  unfold wrapInt
  norm_num
  split <;> omega

/-- A value that wraps to itself at 64-bit unsigned width lies in the
unsigned 64-bit range and conversely. -/
theorem wrapInt_64u_eq (n : ℤ) :
    wrapInt n 64 false = n ↔ 0 ≤ n ∧ n < 18446744073709551616 := by
  unfold wrapInt
  norm_num
  omega

/-- When `np.asarray` of a Python integer produces an integer dtype, the
integer wraps to itself at that dtype. -/
theorem asarrayIntDtype_fits (n : ℤ) (ad : DType)
    (h : asarrayIntDtype n = some ad) :
    (ad = .int64 ∧ wrapInt n 64 true = n) ∨
      (ad = .uint64 ∧ wrapInt n 64 false = n) := by
  unfold asarrayIntDtype at h
  split_ifs at h with h1 h2
  · exact Or.inl ⟨(Option.some.injEq _ _).mp h.symm, (wrapInt_64s_eq n).mpr h1⟩
  · exact Or.inr ⟨(Option.some.injEq _ _).mp h.symm, (wrapInt_64u_eq n).mpr h2⟩

/-- Unfolding equation for `promote_int_fill` when `np.asarray` falls back
to an object array: the overflow probe raises. -/
theorem promote_int_fill_none (d : DType) (w : Nat) (s : Bool) (n : ℤ)
    (ha : asarrayIntDtype n = none) : promote_int_fill d w s n = none := by
  unfold promote_int_fill
  rw [ha]

/-- Unfolding equation for `promote_int_fill` when `np.asarray` produces
an integer dtype. -/
theorem promote_int_fill_some (d : DType) (w : Nat) (s : Bool) (n : ℤ)
    (ad : DType) (ha : asarrayIntDtype n = some ad) :
    promote_int_fill d w s n =
      if wrapInt n w s = n then some (d, .vint n) else some (ad, .vint n) := by
  unfold promote_int_fill
  rw [ha]

/-- The final normalization leaves every integer dtype unchanged. -/
theorem intWidth_finalize (d : DType) (p : Nat × Bool) (v : Val)
    (hw : intWidth d = some p) : promote_finalize (d, v) = some (d, v) := by
  cases d <;> simp_all [intWidth, promote_finalize]

/-- On an integer dtype, the scalar pipeline with an integer fill value is
the overflow-probing branch followed by the final normalization. -/
theorem pipeline_int_unfold (d : DType) (w : Nat) (s : Bool) (n : ℤ)
    (hw : intWidth d = some (w, s)) :
    promote_pipeline d (.vint n) =
      (promote_int_fill d w s n).bind promote_finalize := by
  cases d <;> simp_all [intWidth] <;> obtain ⟨rfl, rfl⟩ := hw <;> rfl

/-- The integer dtypes have widths between 1 and 64 bits. -/
theorem intWidth_bounds (d : DType) (w : Nat) (s : Bool)
    (hw : intWidth d = some (w, s)) : 1 ≤ w ∧ w ≤ 64 := by
  cases d <;> simp_all [intWidth] <;> omega

/-- An integer that survives wrapping at a width of at most 64 bits lies
in the signed or unsigned 64-bit range. -/
theorem wrapInt_fit_range (n : ℤ) (w : Nat) (s : Bool) (h1 : 1 ≤ w)
    (h64 : w ≤ 64) (hfit : wrapInt n w s = n) :
    (-9223372036854775808 ≤ n ∧ n < 9223372036854775808) ∨
      (0 ≤ n ∧ n < 18446744073709551616) := by
  have hb : (2 : ℤ) ^ w = 2 * 2 ^ (w - 1) := by
    conv_lhs => rw [show w = (w - 1) + 1 by omega]
    ring
  have h2 : (2 : ℤ) ^ w ≤ 18446744073709551616 := by
    calc (2 : ℤ) ^ w ≤ 2 ^ 64 := pow_le_pow_right (by norm_num) h64
    _ = 18446744073709551616 := by norm_num
  have h3 : (2 : ℤ) ^ (w - 1) ≤ 9223372036854775808 := by
    calc (2 : ℤ) ^ (w - 1) ≤ 2 ^ 63 := pow_le_pow_right (by norm_num) (by omega)
    _ = 9223372036854775808 := by norm_num
  have hpos : (0 : ℤ) < 2 ^ w := by positivity
  have hm1 := Int.emod_nonneg n (ne_of_gt hpos)
  have hm2 := Int.emod_lt_of_pos n hpos
  simp only [wrapInt] at hfit
  generalize hm : n % (2 ^ w : ℤ) = m at hfit hm1 hm2
  generalize hA : ((2 : ℤ) ^ (w - 1)) = A at hfit h3 hb
  generalize hB : ((2 : ℤ) ^ w) = B at hfit h2 hb hm2
  split_ifs at hfit <;> omega

/-- An integer fill value that round-trips through an integer dtype has a
non-object `np.asarray` dtype, so the overflow probe does not raise. -/
theorem asarray_some_of_fit (d : DType) (w : Nat) (s : Bool) (n : ℤ)
    (hw : intWidth d = some (w, s)) (hfit : wrapInt n w s = n) :
    ∃ ad, asarrayIntDtype n = some ad := by
  obtain ⟨h1, h64⟩ := intWidth_bounds d w s hw
  rcases wrapInt_fit_range n w s h1 h64 hfit with h | h
  · exact ⟨.int64, by simp [asarrayIntDtype, h.1, h.2]⟩
  · by_cases hc1 : -9223372036854775808 ≤ n ∧ n < 9223372036854775808
    · exact ⟨.int64, by simp [asarrayIntDtype, hc1.1, hc1.2]⟩
    · exact ⟨.uint64, by simp [asarrayIntDtype, hc1, h.1, h.2]⟩

/-- Idempotence of the scalar pipeline for an integer fill value against
any dtype whose width is defined (the overflow-probing branch). -/
theorem promote_pipeline_int_idem (d : DType) (w : Nat) (s : Bool) (n : ℤ)
    (hw : intWidth d = some (w, s)) (d' : DType) (v' : Val)
    (h : promote_pipeline d (.vint n) = some (d', v')) :
    promote_pipeline d' (.vint n) = some (d', v') := by
  rw [pipeline_int_unfold d w s n hw] at h
  rcases ha : asarrayIntDtype n with _ | ad
  · rw [promote_int_fill_none d w s n ha] at h
    exact Option.noConfusion h
  · rw [promote_int_fill_some d w s n ad ha] at h
    by_cases hfit : wrapInt n w s = n
    · rw [if_pos hfit] at h
      replace h : promote_finalize (d, Val.vint n) = some (d', v') := h
      rw [intWidth_finalize d (w, s) _ hw] at h
      injection h with h1
      injection h1 with hd hv
      subst hd
      subst hv
      rw [pipeline_int_unfold d w s n hw,
        promote_int_fill_some d w s n ad ha, if_pos hfit]
      exact intWidth_finalize d (w, s) _ hw
    · rw [if_neg hfit] at h
      replace h : promote_finalize (ad, Val.vint n) = some (d', v') := h
      rcases asarrayIntDtype_fits n ad ha with ⟨had, hf⟩ | ⟨had, hf⟩ <;>
        subst had
      · replace h : some ((DType.int64, Val.vint n)) = some (d', v') := h
        injection h with h1
        injection h1 with hd hv
        subst hd
        subst hv
        rw [pipeline_int_unfold .int64 64 true n rfl,
          promote_int_fill_some .int64 64 true n .int64 ha, if_pos hf]
        rfl
      · replace h : some ((DType.uint64, Val.vint n)) = some (d', v') := h
        injection h with h1
        injection h1 with hd hv
        subst hd
        subst hv
        rw [pipeline_int_unfold .uint64 64 false n rfl,
          promote_int_fill_some .uint64 64 false n .uint64 ha, if_pos hf]
        rfl

/-- The scalar promotion pipeline is idempotent: feeding the resulting
dtype back in with the same fill value reproduces the same result. -/
theorem promote_pipeline_idem (d : DType) (v : Val) (d' : DType) (v' : Val)
    (h : promote_pipeline d v = some (d', v')) :
    promote_pipeline d' v = some (d', v') := by
  cases v with
  | vint n =>
    rcases hw : intWidth d with _ | ws
    · cases d <;>
        first
        | exact Option.noConfusion h
        | (injection Option.some.inj h with hd hv; subst hd; subst hv; rfl)
        | simp [intWidth] at hw
    · exact promote_pipeline_int_idem d ws.1 ws.2 n (by rw [hw]) d' v' h
  | pynone =>
    cases d <;>
      first
      | exact Option.noConfusion h
      | (injection Option.some.inj h with hd hv; subst hd; subst hv; rfl)
  | nan =>
    cases d <;>
      first
      | exact Option.noConfusion h
      | (injection Option.some.inj h with hd hv; subst hd; subst hv; rfl)
  | vfloat q =>
    cases d <;>
      first
      | exact Option.noConfusion h
      | (injection Option.some.inj h with hd hv; subst hd; subst hv; rfl)
  | vbool b =>
    cases d <;>
      first
      | exact Option.noConfusion h
      | (injection Option.some.inj h with hd hv; subst hd; subst hv; rfl)
  | vcomplex re im =>
    cases d <;>
      first
      | exact Option.noConfusion h
      | (injection Option.some.inj h with hd hv; subst hd; subst hv; rfl)
  | vstr str =>
    cases d <;>
      first
      | exact Option.noConfusion h
      | (injection Option.some.inj h with hd hv; subst hd; subst hv; rfl)
  | vnat =>
    cases d <;>
      first
      | exact Option.noConfusion h
      | (injection Option.some.inj h with hd hv; subst hd; subst hv; rfl)

/-- C6: promotion is idempotent — if `promote(d, v) = (d', v0)` then
applying it again to the resulting dtype with the same fill value is a
no-op, returning `(d', v0)` unchanged. -/
theorem claim_C6 (d : DType) (fill : FillArg) (d' : DType) (v' : Val)
    (h : maybe_promote d fill = some (d', v')) :
    maybe_promote d' fill = some (d', v') := by
  cases fill with
  | scalar v =>
    exact promote_pipeline_idem d v d' v' h
  | arr ad =>
    have hu : ∀ dd : DType, maybe_promote dd (.arr ad) =
        (if ad.isDatelike then promote_pipeline dd (.vint iNaT)
         else if ad = .object then promote_pipeline .object .nan
         else promote_pipeline dd .nan) := fun dd => rfl
    rw [hu] at h
    rw [hu]
    split_ifs at h ⊢ with h1 h2
    · exact promote_pipeline_idem d (.vint iNaT) d' v' h
    · exact h
    · exact promote_pipeline_idem d .nan d' v' h

/-- Witness for C6 at a concrete input: promoting `(Int64, None)` gives
`(Float64, NaN)`, and promoting again from `Float64` with the same `None`
fill is a no-op. -/
theorem claim_C6_witness :
    maybe_promote .int64 (.scalar .pynone) = some (.float64, .nan) ∧
      maybe_promote .float64 (.scalar .pynone) = some (.float64, .nan) :=
  ⟨rfl, claim_C6 .int64 (.scalar .pynone) .float64 .nan rfl⟩

/-- An integer fill value that round-trips through an integer dtype leaves
the dtype unchanged under promotion. -/
theorem maybe_promote_int_fit (d : DType) (w : Nat) (s : Bool) (n : ℤ)
    (hw : intWidth d = some (w, s)) (hfit : wrapInt n w s = n) :
    maybe_promote d (.scalar (.vint n)) = some (d, .vint n) := by
  show promote_pipeline d (.vint n) = some (d, .vint n)
  obtain ⟨ad, ha⟩ := asarray_some_of_fit d w s n hw hfit
  rw [pipeline_int_unfold d w s n hw,
    promote_int_fill_some d w s n ad ha, if_pos hfit]
  exact intWidth_finalize d (w, s) _ hw

/-- C8: in the promotion resolver, an integer fill value against an
integer dtype leaves the dtype unchanged when the fill round-trips
through the dtype (cast-and-compare), and the dtype is changed only when
that round-trip fails. -/
theorem claim_C8 (d : DType) (w : Nat) (s : Bool) (n : ℤ)
    (hw : intWidth d = some (w, s)) :
    (wrapInt n w s = n → maybe_promote d (.scalar (.vint n)) = some (d, .vint n)) ∧
      (∀ d' v', maybe_promote d (.scalar (.vint n)) = some (d', v') →
        d' ≠ d → wrapInt n w s ≠ n) := by
  refine ⟨fun hfit => maybe_promote_int_fit d w s n hw hfit, ?_⟩
  intro d' v' hp hne hfit
  rw [maybe_promote_int_fit d w s n hw hfit] at hp
  exact hne (((Prod.mk.injEq _ _ _ _).mp ((Option.some.injEq _ _).mp hp)).1.symm)

/-- Witness for C8 at a concrete input: the fill value 3 round-trips
through Int8, so promotion leaves Int8 unchanged. -/
theorem claim_C8_witness :
    maybe_promote .int8 (.scalar (.vint 3)) = some (.int8, .vint 3) :=
  (claim_C8 .int8 8 true 3 (by decide)).1 (by decide)


/-- C9: scalar inference on an ndarray input errors exactly when the array
is not 0-dimensional, and otherwise returns the array's own dtype together
with the unwrapped contained scalar. -/
theorem claim_C9 (ndim : Nat) (d : DType) (v : Val) :
    infer_dtype_from_scalar (.ndarr ndim d v) =
      if ndim = 0 then .ok (d, v) else .error () := by
  by_cases h : ndim = 0 <;> simp [infer_dtype_from_scalar, h]

/-- Astyping an int64 array of integers to float64 converts every element
exactly. -/
theorem astypeArr_int_float (xs : List ℤ) :
    astypeArr ⟨.int64, xs.map Val.vint⟩ .float64 =
      some ⟨.float64, xs.map intFloat⟩ := by
  unfold astypeArr
  have h : ∀ ys : List ℤ, astypeList .float64 (ys.map Val.vint) =
      some (ys.map intFloat) := by
    intro ys
    induction ys with
    | nil => rfl
    | cons y ys ih =>
      simp only [List.map_cons, astypeList, ih]
      rfl
  rw [h]
  rfl

/-- `np.place` with a broadcast scalar whose cast into the destination
dtype succeeds replaces exactly the masked positions. -/
theorem placeGo_scalar (d : DType) (v c : Val) (hc : castVal v d = some c) :
    ∀ (xs : List Val) (ms : List Bool) (k : Nat), xs.length = ms.length →
      placeGo d [v] xs ms k =
        some (List.zipWith (fun x m => if m then c else x) xs ms) := by
  intro xs
  induction xs with
  | nil =>
    intro ms k hlen
    cases ms with
    | nil => rfl
    | cons m ms => simp at hlen
  | cons x xs ih =>
    intro ms k hlen
    cases ms with
    | nil => simp at hlen
    | cons m ms =>
      simp only [List.length_cons, Nat.succ.injEq] at hlen
      cases m with
      | true =>
        simp only [placeGo, if_pos]
        have hv : [v].getD (k % [v].length) Val.pynone = v := by
          simp [List.length_singleton, Nat.mod_one]
        rw [hv, hc, ih ms (k + 1) hlen]
        rfl
      | false =>
        simp only [placeGo, if_neg]
        rw [ih ms k hlen]
        rfl

/-- C3: the masked assignment upcaster on an Int64 destination with a
mask having a selected element and a scalar NaN `other` upcasts to
Float64 with NaN at the masked positions and reports `changed = true`;
with an `other` integer exactly representable in Int64 it writes in place
and reports `changed = false`. -/
theorem claim_C3 (xs : List ℤ) (mask : List Bool)
    (hlen : mask.length = xs.length) (hany : mask.any id = true) :
    maybe_upcast_putmask ⟨.int64, xs.map Val.vint⟩ mask (.scalar .nan) =
        some (⟨.float64, List.zipWith
          (fun x m => if m then Val.nan else intFloat x) xs mask⟩, true) ∧
      ∀ k : ℤ, wrapInt k 64 true = k →
        maybe_upcast_putmask ⟨.int64, xs.map Val.vint⟩ mask (.scalar (.vint k)) =
          some (⟨.int64, List.zipWith
            (fun x m => if m then Val.vint k else Val.vint x) xs mask⟩, false) := by
  constructor
  · have hp : maybe_promote .int64 (.scalar Val.nan) = some (.float64, Val.nan) := rfl
    have hast := astypeArr_int_float xs
    have hplace : place ⟨.float64, xs.map intFloat⟩ mask
        (.scalar .nan) = some ⟨.float64, List.zipWith
          (fun x m => if m then Val.nan else intFloat x) xs mask⟩ := by
      unfold place
      rw [if_neg (by simp [hlen])]
      rw [placeGo_scalar .float64 .nan .nan rfl _ _ 0 (by simp [hlen])]
      simp [List.zipWith_map_left]
    simp [maybe_upcast_putmask, hany, putmaskOther, otherFill, DType.isDatelike,
      isnullV, changeit, maybe_upcast, Arr.isExtensionType, is_extension_dtype_t,
      hp, hast, hplace]
  · intro k hfit
    have hp : maybe_promote .int64 (.scalar (.vint k)) = some (.int64, .vint k) :=
      maybe_promote_int_fit .int64 64 true k rfl hfit
    have hc : castVal (.vint k) .int64 = some (.vint k) := by
      simp [castVal, intWidth, hfit]
    have hplace : place ⟨.int64, xs.map Val.vint⟩ mask (.scalar (.vint k)) =
        some ⟨.int64, List.zipWith
          (fun x m => if m then Val.vint k else Val.vint x) xs mask⟩ := by
      unfold place
      rw [if_neg (by simp [hlen])]
      rw [placeGo_scalar .int64 (.vint k) (.vint k) hc _ _ 0 (by simp [hlen])]
      simp [List.zipWith_map_left]
    simp [maybe_upcast_putmask, hany, putmaskOther, otherFill, DType.isDatelike,
      hp, hplace]

/-- Witness for C3 at a concrete input: the Int64 array `[1, 2, 3]` with
the mask selecting its middle element, against NaN and against 5. -/
theorem claim_C3_witness :
    maybe_upcast_putmask ⟨.int64, [.vint 1, .vint 2, .vint 3]⟩
        [false, true, false] (.scalar .nan) =
        some (⟨.float64, [.vfloat 1, .nan, .vfloat 3]⟩, true) ∧
      maybe_upcast_putmask ⟨.int64, [.vint 1, .vint 2, .vint 3]⟩
        [false, true, false] (.scalar (.vint 5)) =
        some (⟨.int64, [.vint 1, .vint 5, .vint 3]⟩, false) := by
  obtain ⟨h1, h2⟩ := claim_C3 [1, 2, 3] [false, true, false] (by decide) (by decide)
  constructor
  · rw [show ([1, 2, 3] : List ℤ).map Val.vint
        = [Val.vint 1, Val.vint 2, Val.vint 3] from rfl] at h1
    rw [h1]
    rfl
  · rw [show ([1, 2, 3] : List ℤ).map Val.vint
        = [Val.vint 1, Val.vint 2, Val.vint 3] from rfl] at h2
    rw [h2 5 (by decide)]
    rfl

/-- C2: with numeric coercion enabled, the object-array classifier keeps
the coerced numeric result exactly when not every produced element is
null; in particular converting `["1", "2", "x"]` yields `[1, 2, NaN]`,
which is not all-null and is accepted as a Float64 array. -/
theorem claim_C2 :
    (∀ data : List Val,
      possibly_convert_objects ⟨.object, data⟩ .off true .off true =
        (if (maybe_convert_numeric_coerce ⟨.object, data⟩).data.all isnullV
         then ⟨.object, data⟩
         else maybe_convert_numeric_coerce ⟨.object, data⟩)) ∧
      possibly_convert_objects
          ⟨.object, [.vstr "1", .vstr "2", .vstr "x"]⟩ .off true .off true =
        ⟨.float64, [.vfloat 1, .vfloat 2, .nan]⟩ := by
  constructor
  · intro data
    by_cases h : (maybe_convert_numeric_coerce ⟨.object, data⟩).data.all isnullV <;>
      simp [possibly_convert_objects, h]
  · decide

/-- C7: the soft classifier raises exactly when no conversion flag is
enabled or when `coerce` is set together with more than one enabled flag;
every other flag combination passes validation and returns a result. -/
theorem claim_C7 (values : SCInput) (datetime : Bool) (numeric : Bool)
    (timedelta : Bool) (coerce : Bool) (copy : Bool) :
    soft_convert_objects values datetime numeric timedelta coerce copy =
        .error () ↔
      ((datetime = false ∧ numeric = false ∧ timedelta = false) ∨
        (coerce = true ∧
          ((datetime = true ∧ numeric = true) ∨
            (datetime = true ∧ timedelta = true) ∨
            (numeric = true ∧ timedelta = true)))) := by
  cases datetime <;> cases numeric <;> cases timedelta <;> cases coerce <;>
    simp [soft_convert_objects]

/-- C10: in the soft classifier's best-effort mode with only the numeric
flag enabled, the numeric stage applies exactly the all-null-discard rule
of the object-array classifier: the two functions agree on every
object-typed array. -/
theorem claim_C10 (data : List Val) (copy : Bool) :
    soft_convert_objects (.arrIn ⟨.object, data⟩) false true false false copy =
      .ok (possibly_convert_objects ⟨.object, data⟩ .off true .off true) := by
  simp [soft_convert_objects, soft_convert_result, possibly_convert_objects]

/-- Counterexample to C4 as stated: the downcast operation DOES raise for
some input — an unrecognized dtype string is resolved by `np.dtype`
before the swallow-all handler begins, so a Float64 array with the dtype
string "garbage" raises. -/
theorem claim_C4_counterexample :
    possibly_downcast_to_dtype (.arr ⟨.float64, [.vfloat 1]⟩)
      (.str "garbage") = .error () := by
  rfl

/-- C4 (amended): every exception inside the narrowing phase is swallowed
and the original result returned, and a scalar result returns unchanged;
the only raising inputs are a non-scalar result together with a dtype
string that is neither `'infer'` nor a recognized dtype name, because
that string is resolved before the guarded region. -/
theorem claim_C4 (result : DcInput) (dtype : DtypeArg) :
    possibly_downcast_to_dtype result dtype = .error () ↔
      (∃ a s, result = .arr a ∧ dtype = .str s ∧ s ≠ "infer" ∧
        npDtypeOfString s = none) := by
  cases result with
  | scalar v => simp [possibly_downcast_to_dtype]
  | arr a =>
    cases dtype with
    | dt d => simp [possibly_downcast_to_dtype, Except.map]
    | str s =>
      by_cases hs : s = "infer"
      · subst hs
        simp only [possibly_downcast_to_dtype]
        split_ifs <;> simp [npDtypeOfString, Except.map]
      · rcases hnp : npDtypeOfString s with _ | d
        · simp [possibly_downcast_to_dtype, hs, hnp, Except.map]
        · simp [possibly_downcast_to_dtype, hs, hnp, Except.map]

end PandasCast
